import Mathlib

/-!
Verification of the statement-decoding pipeline of the agentic-ledger
repository (module `gmail_fetcher/pdf_parser.py`).

The Python module is shallowly embedded below.  Strings are Lean `String`s,
Python's `float` values produced by `float(...)` on the numeric strings that
occur here are modelled as exact rationals (`ℚ`), Python `datetime` values
produced by `strptime` are modelled as a `Date` record validated exactly the
way `strptime` validates (`%m`/`%d` field shapes plus calendar validity),
`None`-able values are `Option`, and an uncaught Python exception is the
`Except.error` case of `Except PdfError`.

The regular expressions of the source are embedded as explicit backtracking
matchers that follow Python's `re` semantics (leftmost search, greedy and
lazy quantifier priority) on the character classes actually used.
-/

/-- Python `str.strip()` / `\s` whitespace characters (ASCII range, which is
all that occurs in statement text). -/
def isPySpace (c : Char) : Bool :=
  c = ' ' || c = '\t' || c = '\n' || c = '\r' || c = '\x0b' || c = '\x0c'

/-- Python regex `\d` on ASCII input. -/
def isPyDigit (c : Char) : Bool :=
  '0' ≤ c && c ≤ '9'

/-- The character class `[\d,.]` used for amount fields in the source regexes. -/
def isAmtChar (c : Char) : Bool :=
  isPyDigit c || c = ',' || c = '.'

/-- Strip leading and trailing whitespace from a character list
(Python `str.strip()`). -/
def pyStripL (cs : List Char) : List Char :=
  ((cs.dropWhile isPySpace).reverse.dropWhile isPySpace).reverse

/-- Python `str.strip()`. -/
def pyStrip (s : String) : String :=
  String.mk (pyStripL s.data)

/-- Substring test on character lists (Python `needle in hay`). -/
def substrAux (needle : List Char) : List Char → Bool
  | [] => needle.isEmpty
  | c :: rest => needle.isPrefixOf (c :: rest) || substrAux needle rest

/-- Python `needle in hay` for strings. -/
def containsSub (needle hay : String) : Bool :=
  substrAux needle.data hay.data

/-- Split a character list at every occurrence of `sep`
(Python `str.split(sep)`, which yields `[""]` on the empty string). -/
def splitOnCharAux (sep : Char) (acc : List Char) : List Char → List (List Char)
  | [] => [acc.reverse]
  | c :: rest =>
    if c = sep then acc.reverse :: splitOnCharAux sep [] rest
    else splitOnCharAux sep (c :: acc) rest

/-- Python `str.split(sep)` on character lists. -/
def splitOnChar (sep : Char) (cs : List Char) : List (List Char) :=
  splitOnCharAux sep [] cs

/-- Python `page_text.split("\n")`. -/
def pySplitLines (s : String) : List String :=
  (splitOnChar '\n' s.data).map String.mk

/-- Numeric value of a digit string. -/
def natOfDigits (cs : List Char) : Nat :=
  cs.foldl (fun n c => 10 * n + (c.toNat - ('0').toNat)) 0

/-- Calendar date, the observable content of the `datetime` values the
parser constructs (the time-of-day part is always midnight). -/
structure Date where
  year : Nat
  month : Nat
  day : Nat
deriving DecidableEq

/-- Gregorian leap-year rule used by Python `datetime`. -/
def isLeapYear (y : Nat) : Bool :=
  (y % 4 == 0 && y % 100 != 0) || y % 400 == 0

/-- Number of days in a month, as validated by Python `datetime`. -/
def daysInMonth (y m : Nat) : Nat :=
  if m == 2 then (if isLeapYear y then 29 else 28)
  else if m == 4 || m == 6 || m == 9 || m == 11 then 30
  else 31

/-- A calendar-valid date within `datetime`'s supported year range. -/
def validDate (dt : Date) : Bool :=
  decide (1 ≤ dt.month) && decide (dt.month ≤ 12) &&
  decide (1 ≤ dt.day) && decide (dt.day ≤ daysInMonth dt.year dt.month) &&
  decide (1 ≤ dt.year) && decide (dt.year ≤ 9999)

/-- Python `datetime.strptime` for the two fixed formats of the source,
`"%m/%d/%Y"` (`dayFirst = false`, `sep = '/'`) and `"%d-%m-%Y"`
(`dayFirst = true`, `sep = '-'`): the month and day fields accept one or two
digits, the year field exactly four, the whole string must be consumed, and
the resulting date must be calendar-valid (otherwise `ValueError`, which the
callers turn into `none`).  `strptimeFields` is the per-field validation
and construction step shared by both formats. -/
def strptimeFields (ms ds ys : List Char) : Option Date :=
  if ms.all isPyDigit && ds.all isPyDigit && ys.all isPyDigit &&
     decide (1 ≤ ms.length) && decide (ms.length ≤ 2) &&
     decide (1 ≤ ds.length) && decide (ds.length ≤ 2) &&
     decide (ys.length = 4) &&
     validDate ⟨natOfDigits ys, natOfDigits ms, natOfDigits ds⟩
  then some ⟨natOfDigits ys, natOfDigits ms, natOfDigits ds⟩ else none

/-- The `strptime` model proper: split on the separator into exactly three
fields (month/day order per `dayFirst`) and validate. -/
def strptimeWith (sep : Char) (dayFirst : Bool) (s : String) : Option Date :=
  match splitOnChar sep s.data with
  | [a, b, c] =>
    strptimeFields (if dayFirst then b else a) (if dayFirst then a else b) c
  | _ => none

/-- Source `parse_date`: strip, then `strptime(_, "%m/%d/%Y")`,
with `ValueError` mapped to `None`. -/
def parse_date (date_str : String) : Option Date :=
  strptimeWith '/' false (pyStrip date_str)

/-- Python `float(...)` on the digits-and-one-dot strings reachable here,
after optional sign stripping: digits, optionally a single dot with digit
groups on either side (at least one digit in total).  Anything else raises
`ValueError`, modelled as `none`. -/
def pyFloatCore (cs : List Char) : Option ℚ :=
  let ip := cs.takeWhile isPyDigit
  let r2 := cs.drop ip.length
  match r2 with
  | [] => if ip.isEmpty then none else some (natOfDigits ip)
  | c :: fr =>
    if c = '.' then
      let fp := fr.takeWhile isPyDigit
      if (fr.drop fp.length).isEmpty && !(ip.isEmpty && fp.isEmpty) then
        some ((natOfDigits ip : ℚ) + (natOfDigits fp : ℚ) / (10 : ℚ) ^ fp.length)
      else none
    else none

/-- Python `float(str)`: strip whitespace, optional sign, then the numeric
body.  Returns `none` where `float` raises `ValueError`. -/
def pyFloat (cs : List Char) : Option ℚ :=
  match pyStripL cs with
  | [] => none
  | c :: r =>
    if c = '-' then (pyFloatCore r).map (fun q => -q)
    else if c = '+' then pyFloatCore r
    else pyFloatCore (c :: r)

/-- Source `parse_amount` up to the `float(...)` call: remove `$` and `,`,
strip, and rewrite a fully parenthesized value to a `-`-prefixed one. -/
def cleanAmount (cs : List Char) : List Char :=
  let cleaned := pyStripL ((cs.filter (fun c => c ≠ '$')).filter (fun c => c ≠ ','))
  if cleaned.head? = some '(' ∧ cleaned.getLast? = some ')' then
    '-' :: (cleaned.drop 1).dropLast
  else cleaned

/-- Source `parse_amount`; `none` is the uncaught `ValueError` of
`float(cleaned)`. -/
def parse_amount (amount_str : String) : Option ℚ :=
  pyFloat (cleanAmount amount_str.data)

/-- One `\d{2}<sep>\d{2}<sep>\d{4}` date group (fixed shape, no
backtracking inside): returns the ten matched characters and the rest. -/
def matchDate2sep (sep : Char) (cs : List Char) : Option (List Char × List Char) :=
  match cs with
  | a :: b :: s1 :: c :: d :: s2 :: e :: f :: g :: h :: rest =>
    if isPyDigit a && isPyDigit b && s1 = sep && isPyDigit c && isPyDigit d &&
       s2 = sep && isPyDigit e && isPyDigit f && isPyDigit g && isPyDigit h
    then some ([a, b, s1, c, d, s2, e, f, g, h], rest) else none
  | _ => none

/-- The optional currency symbol `\$?`: consume one leading `$` if present. -/
def stripDollar (r : List Char) : List Char :=
  match r with
  | c :: t => if c = '$' then t else c :: t
  | [] => []

/-- The suffix `\s+\$?([\d,.]+)\s*$` of the transaction-line regex.  All its
quantifier choices are forced (shrinking `\s+` puts a whitespace character
where `\$?[\d,.]+` must match, shrinking `[\d,.]+` puts a class character
where `\s*$` must match), so the greedy matcher below is exact; it returns
the captured amount group. -/
def matchTail (cs : List Char) : Option (List Char) :=
  if (cs.takeWhile isPySpace).isEmpty then none
  else
    let r2 := stripDollar (cs.dropWhile isPySpace)
    let amt := r2.takeWhile isAmtChar
    if amt.isEmpty then none
    else if (r2.dropWhile isAmtChar).all isPySpace then some amt
    else none

/-- Lazy `(.+?)` followed by `matchTail`: the shortest nonempty description
(which may not contain a newline, since `.` does not match one) whose
remainder matches the tail wins, exactly re's lazy-quantifier priority.
Returns the description and amount groups. -/
def findDescAmt (acc : List Char) : List Char → Option (List Char × List Char)
  | [] => none
  | c :: rest =>
    if c = '\n' then none
    else
      match matchTail rest with
      | some amt => some (acc ++ [c], amt)
      | none => findDescAmt (acc ++ [c]) rest

/-- Greedy `\s+` after the second date, with backtracking: try consuming
`k` whitespace characters for `k` from the maximal run down to `1`
(re's greedy priority), running the lazy description matcher on the rest. -/
def tryWsDesc (cs : List Char) : Nat → Option (List Char × List Char)
  | 0 => none
  | k + 1 =>
    match findDescAmt [] (cs.drop (k + 1)) with
    | some r => some r
    | none => tryWsDesc cs k

/-- `\s+(.+?)\s+\$?([\d,.]+)\s*$`, the part of the transaction regex after
the second date. -/
def matchDescAmt (cs : List Char) : Option (List Char × List Char) :=
  tryWsDesc cs (cs.takeWhile isPySpace).length

/-- The source's transaction-line pattern
`re.match(r"(\d{2}/\d{2}/\d{4})\s+(\d{2}/\d{2}/\d{4})\s+(.+?)\s+\$?([\d,.]+)\s*$", line)`:
anchored at the start, returning the four captured groups. -/
def txMatch (line : String) : Option (String × String × String × String) :=
  match matchDate2sep '/' line.data with
  | none => none
  | some (d1, r1) =>
    let ws1 := (r1.takeWhile isPySpace).length
    if ws1 = 0 then none
    else
      match matchDate2sep '/' (r1.drop ws1) with
      | none => none
      | some (d2, r2) =>
        match matchDescAmt r2 with
        | none => none
        | some (desc, amt) =>
          some (String.mk d1, String.mk d2, String.mk desc, String.mk amt)

/-- Source dataclass `Transaction`. -/
structure Transaction where
  posted_date : Date
  transaction_date : Date
  description : String
  amount : ℚ
  transaction_type : String
deriving DecidableEq

/-- Source dataclass `StatementSummary` (all fields default to `None`). -/
structure StatementSummary where
  bill_period_start : Option Date := none
  bill_period_end : Option Date := none
  previous_balance : Option ℚ := none
  new_balance : Option ℚ := none
  payment_due_date : Option Date := none
  minimum_payment : Option ℚ := none
  payments : Option ℚ := none
  purchases : Option ℚ := none
deriving DecidableEq

/-- The fatal error kinds of the pipeline: the decryption and extraction
failures named by the module's contract, and the uncaught `ValueError`
that `float(...)` raises inside `parse_amount`; each carries its cause. -/
inductive PdfError where
  | decryptionError (cause : String)
  | extractionError (cause : String)
  | valueError (cause : String)
deriving DecidableEq

/-- The transaction-line step of the line loop (the body after the section
bookkeeping): try the positional pattern, then decode the amount and the
two dates, emitting a Transaction tagged with the current section only when
both dates parse.
The result is either the parsed transaction (if any) or the uncaught
`ValueError` of `parse_amount`, which the source evaluates before the date
validity check. -/
def tryParseTx (sec : String) (line : String) :
    Except PdfError (Option Transaction) :=
  match txMatch line with
  | none => Except.ok none
  | some (g1, g2, g3, g4) =>
    match parse_amount g4 with
    | none => Except.error (PdfError.valueError g4)
    | some amount =>
      match parse_date g1, parse_date g2 with
      | some pd, some td =>
        Except.ok (some {
          posted_date := pd, transaction_date := td,
          description := pyStrip g3, amount := amount,
          transaction_type := sec })
      | _, _ => Except.ok none

/-- One iteration of the line loop of `parse_transactions`: strip the line,
update the section state on header lines, skip `Sub Total` /
`No transaction available` lines and anything outside a credit/debit
section, and otherwise run the transaction-line step above.  Python's
`not current_section` is true for `None` and for the empty string. -/
def processLine (current_section : Option String) (rawLine : String) :
    Option String × Except PdfError (Option Transaction) :=
  let line := pyStrip rawLine
  if containsSub ("Payments and Other Credits") line then
    (some ("credit"), Except.ok none)
  else if containsSub ("Purchases and Cash Advances") line then
    (some ("debit"), Except.ok none)
  else if containsSub ("Fees and Interest Charged") line then
    (some ("fees"), Except.ok none)
  else if containsSub ("Sub Total") line || containsSub ("No transaction available") line then
    (current_section, Except.ok none)
  else
    match current_section with
    | none => (none, Except.ok none)
    | some sec =>
      if sec == "" || sec == "fees" then (some sec, Except.ok none)
      else (some sec, tryParseTx sec line)

/-- The line loop of `parse_transactions` over one page's lines, threading
the section state and appending found transactions to `acc`. -/
def scanLines (sec : Option String) (acc : List Transaction) :
    List String → Except PdfError (Option String × List Transaction)
  | [] => Except.ok (sec, acc)
  | l :: ls =>
    match processLine sec l with
    | (_, Except.error e) => Except.error e
    | (sec', Except.ok none) => scanLines sec' acc ls
    | (sec', Except.ok (some t)) => scanLines sec' (acc ++ [t]) ls

/-- One iteration of the page loop: a page without the literal
`"Account Activity"` is skipped whole; otherwise its lines are scanned
with the section state freshly initialised to `None`. -/
def scanPage (acc : List Transaction) (page_text : String) :
    Except PdfError (List Transaction) :=
  if containsSub ("Account Activity") page_text = false then Except.ok acc
  else
    match scanLines none acc (pySplitLines page_text) with
    | Except.error e => Except.error e
    | Except.ok (_, acc') => Except.ok acc'

/-- The page loop of `parse_transactions`. -/
def scanPages (acc : List Transaction) : List String → Except PdfError (List Transaction)
  | [] => Except.ok acc
  | p :: ps =>
    match scanPage acc p with
    | Except.error e => Except.error e
    | Except.ok acc' => scanPages acc' ps

/-- Consume a literal from the front of a character list. -/
def stripLit : List Char → List Char → Option (List Char)
  | [], cs => some cs
  | _ :: _, [] => none
  | l :: ls, c :: cs => if c = l then stripLit ls cs else none

/-- `re.search`: try the position matcher `f` at every position, leftmost
first (all the source's search patterns are anchored by a leading literal
and have forced quantifiers at each position, so `f` is deterministic). -/
def searchFrom {α : Type} (f : List Char → Option α) : List Char → Option α
  | [] => f []
  | c :: rest =>
    match f (c :: rest) with
    | some r => some r
    | none => searchFrom f rest

/-- `r"Bill Period:\s*(\d{2}-\d{2}-\d{4})\s*-\s*(\d{2}-\d{2}-\d{4})"` at one
position (each `\s*` is forced: after a maximal whitespace run the next
token is a digit or `-`, which no shorter run can expose). -/
def matchBillAt (cs : List Char) : Option (List Char × List Char) := do
  let r ← stripLit ("Bill Period:").data cs
  let r := r.drop (r.takeWhile isPySpace).length
  let (g1, r) ← matchDate2sep '-' r
  let r := r.drop (r.takeWhile isPySpace).length
  match r with
  | '-' :: r2 =>
    let r3 := r2.drop (r2.takeWhile isPySpace).length
    let (g2, _) ← matchDate2sep '-' r3
    some (g1, g2)
  | _ => none

/-- `r"Previous Balance\s*\$?([\d,.]+)"` at one position (quantifiers
forced as above). -/
def matchPrevBalAt (cs : List Char) : Option (List Char) := do
  let r ← stripLit ("Previous Balance").data cs
  let amt := (stripDollar (r.dropWhile isPySpace)).takeWhile isAmtChar
  if amt.isEmpty then none else some amt

/-- One backtracking attempt of `\$?([\d,.]+)` for the New-Balance pattern. -/
def attemptNB (r : List Char) : Option (List Char) :=
  let amt := (stripDollar r).takeWhile isAmtChar
  if amt.isEmpty then none else some amt

/-- Greedy `[^\$]*` with backtracking: try consuming `k` characters from the
maximal non-`$` run down to `0`. -/
def tryNB (r : List Char) : Nat → Option (List Char)
  | 0 => attemptNB r
  | k + 1 =>
    match attemptNB (r.drop (k + 1)) with
    | some a => some a
    | none => tryNB r k

/-- `r"New Balance[^\$]*\$?([\d,.]+)"` at one position. -/
def matchNewBalAt (cs : List Char) : Option (List Char) := do
  let r ← stripLit ("New Balance").data cs
  tryNB r (r.takeWhile (fun c => c ≠ '$')).length

/-- The first-page block of `parse_transactions`: three independent
`re.search`es over the first page's text.  A failed `strptime` on a
bill-period group is caught (`except ValueError: pass`) after any earlier
assignment of the pair has happened, while a failed `float` inside
`parse_amount` on a balance group is an uncaught `ValueError`. -/
def extractSummary (first_page : String) : Except PdfError StatementSummary :=
  let cs := first_page.data
  let s1 : StatementSummary :=
    match searchFrom matchBillAt cs with
    | none => {}
    | some (g1, g2) =>
      match strptimeWith '-' true (String.mk g1) with
      | none => {}
      | some d1 =>
        match strptimeWith '-' true (String.mk g2) with
        | none => { bill_period_start := some d1 }
        | some d2 => { bill_period_start := some d1, bill_period_end := some d2 }
  match (match searchFrom matchPrevBalAt cs with
         | none => Except.ok s1
         | some g =>
           match parse_amount (String.mk g) with
           | none => Except.error (PdfError.valueError (String.mk g))
           | some v => Except.ok { s1 with previous_balance := some v }) with
  | Except.error e => Except.error e
  | Except.ok s2 =>
    match searchFrom matchNewBalAt cs with
    | none => Except.ok s2
    | some g =>
      match parse_amount (String.mk g) with
      | none => Except.error (PdfError.valueError (String.mk g))
      | some v => Except.ok { s2 with new_balance := some v }

/-- Source `parse_transactions`: the summary block runs first (its uncaught
errors preempt the page loop, as in the source's statement order), then the
page loop collects transactions in page order and within-page line order. -/
def parse_transactions (pages_text : List String) :
    Except PdfError (List Transaction × StatementSummary) :=
  match (match pages_text with
         | [] => Except.ok ({} : StatementSummary)
         | first_page :: _ => extractSummary first_page) with
  | Except.error e => Except.error e
  | Except.ok summary =>
    match scanPages [] pages_text with
    | Except.error e => Except.error e
    | Except.ok txs => Except.ok (txs, summary)

/-- Source `parse_statement_pdf`, the pipeline coordinator.  Modelled from
the spec: `decrypt_pdf` and `extract_text_from_pdf` delegate to the external
`pikepdf` and `pdfplumber` libraries, whose behavior is outside this
repository; they are taken as parameters that either produce decrypted
bytes / per-page text or fail with the corresponding error.  The source's
own contribution — sequencing the three stages with no recovery — is
embedded exactly. -/
def parse_statement_pdf
    (decrypt_pdf : List Nat → String → Except PdfError (List Nat))
    (extract_text_from_pdf : List Nat → Except PdfError (List String))
    (pdf_bytes : List Nat) (password : String) :
    Except PdfError (List Transaction × StatementSummary) :=
  match decrypt_pdf pdf_bytes password with
  | Except.error e => Except.error e
  | Except.ok decrypted =>
    match extract_text_from_pdf decrypted with
    | Except.error e => Except.error e
    | Except.ok pages_text => parse_transactions pages_text

/-- The worked example page of the spec: a debit-section transaction line on
an `Account Activity` page. -/
def examplePage : String :=
  "Account Activity\nPurchases and Cash Advances\n04/02/2024  04/01/2024  AMAZON MKTPLACE  $45.67"

/-- The transaction the spec's worked example describes. -/
def exampleTx : Transaction :=
  { posted_date := ⟨2024, 4, 2⟩, transaction_date := ⟨2024, 4, 1⟩,
    description := "AMAZON MKTPLACE", amount := (45.67 : ℚ),
    transaction_type := "debit" }

/-- The worked summary example page of the spec. -/
def summaryPage : String :=
  "Bill Period: 01-03-2024 - 31-03-2024\nPrevious Balance $200.00\nNew Balance $350.25"

/-- A first page whose bill-period pattern matches with a valid start date
and an invalid (month 13) end date. -/
def badEndPage : String := "Bill Period: 01-03-2024 - 31-13-2024"

/-- An `Account Activity` page with a credit-section line whose amount
field matches the pattern `[\d,.]+` but is not a number. -/
def badAmountPage : String :=
  "Account Activity\nPayments and Other Credits\n04/02/2024 04/01/2024 STORE 1.2.3"

/-- C4: the input line `"04/02/2024  04/01/2024  AMAZON MKTPLACE  $45.67"`,
scanned while the section state is DEBIT on a page containing
`"Account Activity"`, yields exactly one Transaction with posted_date
2024-04-02, transaction_date 2024-04-01, description `"AMAZON MKTPLACE"`,
amount 45.67 and transaction_type debit: both for the single line in the
debit state and for the whole worked-example page. -/
theorem debit_example_line_parsed :
    processLine (some "debit") "04/02/2024  04/01/2024  AMAZON MKTPLACE  $45.67" =
      (some "debit", Except.ok (some
        { posted_date := ⟨2024, 4, 2⟩, transaction_date := ⟨2024, 4, 1⟩,
          description := "AMAZON MKTPLACE", amount := (45.67 : ℚ),
          transaction_type := "debit" })) ∧
    parse_transactions [examplePage] = Except.ok ([exampleTx], {}) := by
  constructor
  · with_unfolding_all rfl
  · with_unfolding_all rfl

/-- C7: a first page containing `"Bill Period: 01-03-2024 - 31-03-2024"`,
`"Previous Balance $200.00"` and `"New Balance $350.25"` yields a
StatementSummary with bill_period_start 2024-03-01 and bill_period_end
2024-03-31 (bill-period dates read day-month-year), previous_balance 200.00
and new_balance 350.25. -/
theorem summary_example_page :
    parse_transactions [summaryPage] = Except.ok ([],
      { bill_period_start := some ⟨2024, 3, 1⟩, bill_period_end := some ⟨2024, 3, 31⟩,
        previous_balance := some (200 : ℚ), new_balance := some (350.25 : ℚ) }) := by
  with_unfolding_all rfl

/-- C8: the amount decoder maps `'($123.45)'` to `-123.45` and `'$1,234.56'`
to `1234.56`: currency symbol and comma separators are stripped and a
parenthesized value is negated. -/
theorem amount_decoding_examples :
    parse_amount "($123.45)" = some (-(123.45 : ℚ)) ∧
    parse_amount "$1,234.56" = some (1234.56 : ℚ) := by
  constructor
  · with_unfolding_all rfl
  · with_unfolding_all rfl

/-- C1 (failing input): the credit-section line
`"04/02/2024 04/01/2024 STORE 1.2.3"` matches the transaction-line pattern
with amount group `"1.2.3"`, on which `float` fails; contrary to the claim
that every line-level or field-level parse failure is a silent discard,
`parse_transactions` propagates this as an uncaught `ValueError` instead of
skipping the line. -/
theorem amount_float_failure_raises :
    txMatch "04/02/2024 04/01/2024 STORE 1.2.3" =
      some ("04/02/2024", "04/01/2024", "STORE", "1.2.3") ∧
    parse_amount "1.2.3" = none ∧
    parse_transactions [badAmountPage] = Except.error (PdfError.valueError "1.2.3") := by
  refine ⟨by decide, ?_, ?_⟩
  · with_unfolding_all rfl
  · with_unfolding_all rfl

/-- If the bill-period search of the summary extractor matched with groups
`g1`, `g2`, the extracted summary's bill-period fields reflect the two
`strptime` results of the source's try-block: a failure on the end date
leaves the already-assigned start date in place. -/
theorem extractSummary_bill_fields (fp : String) (g1 g2 : List Char) (d1 : Date)
    (s : StatementSummary)
    (hbp : searchFrom matchBillAt fp.data = some (g1, g2))
    (h1 : strptimeWith '-' true (String.mk g1) = some d1)
    (h2 : strptimeWith '-' true (String.mk g2) = none)
    (h : extractSummary fp = Except.ok s) :
    s.bill_period_start = some d1 ∧ s.bill_period_end = none := by
  unfold extractSummary at h
  simp only [hbp, h1, h2] at h
  split at h
  · exact absurd h (by simp)
  next s2 hs2 =>
    split at hs2
    · cases hs2
      split at h
      · cases h
        exact ⟨rfl, rfl⟩
      · split at h
        · cases h
        · cases h
          exact ⟨rfl, rfl⟩
    next g hg =>
      split at hs2
      · cases hs2
      · cases hs2
        split at h
        · cases h
          exact ⟨rfl, rfl⟩
        · split at h
          · cases h
          · cases h
            exact ⟨rfl, rfl⟩

/-- C10: if the first page's bill-period pattern matches but the end date is
not a valid calendar date while the start date is, a successful
`parse_transactions` run still sets bill_period_start to the parsed start
date while bill_period_end stays absent: the pair is not populated
atomically. -/
theorem bill_period_non_atomic (fp : String) (rest : List String)
    (g1 g2 : List Char) (d1 : Date)
    (txs : List Transaction) (summary : StatementSummary)
    (hbp : searchFrom matchBillAt fp.data = some (g1, g2))
    (h1 : strptimeWith '-' true (String.mk g1) = some d1)
    (h2 : strptimeWith '-' true (String.mk g2) = none)
    (hp : parse_transactions (fp :: rest) = Except.ok (txs, summary)) :
    summary.bill_period_start = some d1 ∧ summary.bill_period_end = none := by
  unfold parse_transactions at hp
  split at hp
  · cases hp
  · rename_i s hs
    split at hp
    · cases hp
    · cases hp
      exact extractSummary_bill_fields fp g1 g2 d1 summary hbp h1 h2 hs

/-- Witness for C10 at the concrete page
`"Bill Period: 01-03-2024 - 31-13-2024"`. -/
theorem bill_period_non_atomic_witness :
    parse_transactions [badEndPage] =
      Except.ok ([], { bill_period_start := some ⟨2024, 3, 1⟩ }) ∧
    ({ bill_period_start := some ⟨2024, 3, 1⟩ } : StatementSummary).bill_period_start =
      some ⟨2024, 3, 1⟩ ∧
    ({ bill_period_start := some ⟨2024, 3, 1⟩ } : StatementSummary).bill_period_end = none := by
  refine ⟨by with_unfolding_all rfl, ?_⟩
  exact bill_period_non_atomic badEndPage [] ("01-03-2024").data ("31-13-2024").data
    ⟨2024, 3, 1⟩ [] { bill_period_start := some ⟨2024, 3, 1⟩ }
    (by decide) (by decide) (by decide) (by with_unfolding_all rfl)

/-- C9: when the decryption stage fails with a DecryptionError, the
pipeline coordinator `parse_statement_pdf` propagates exactly that error to
the caller and returns no (partial) transaction list. -/
theorem decryption_error_propagates
    (decrypt_pdf : List Nat → String → Except PdfError (List Nat))
    (extract_text_from_pdf : List Nat → Except PdfError (List String))
    (pdf_bytes : List Nat) (password : String) (cause : String)
    (h : decrypt_pdf pdf_bytes password = Except.error (PdfError.decryptionError cause)) :
    parse_statement_pdf decrypt_pdf extract_text_from_pdf pdf_bytes password =
      Except.error (PdfError.decryptionError cause) := by
  unfold parse_statement_pdf
  rw [h]

/-- A list's `head?` element is a member. -/
theorem head?_mem {α : Type} {l : List α} {a : α} (h : l.head? = some a) : a ∈ l := by
  cases l with
  | nil => cases h
  | cons b t =>
    cases h
    exact List.mem_cons_self _ _

/-- `pyStripL` only removes characters. -/
theorem pyStripL_subset {c : Char} {cs : List Char} (h : c ∈ pyStripL cs) : c ∈ cs := by
  unfold pyStripL at h
  rw [List.mem_reverse] at h
  have h2 := (List.dropWhile_sublist (p := isPySpace)).subset h
  rw [List.mem_reverse] at h2
  exact (List.dropWhile_sublist (p := isPySpace)).subset h2

/-- The numeric body parsed by `pyFloatCore` is never negative. -/
theorem pyFloatCore_nonneg (cs : List Char) (q : ℚ) (h : pyFloatCore cs = some q) :
    0 ≤ q := by
  unfold pyFloatCore at h
  simp only [] at h
  split at h
  · split at h
    · cases h
    · cases h
      positivity
  · split at h
    · split at h
      · cases h
        positivity
      · cases h
    · cases h

/-- `pyFloat` of a string of `[\d,.]` characters is never negative: such a
string cannot carry a minus sign. -/
theorem pyFloat_nonneg {L : List Char} {q : ℚ}
    (hL : ∀ c ∈ L, isAmtChar c = true) (h : pyFloat L = some q) : 0 ≤ q := by
  unfold pyFloat at h
  cases hm : pyStripL L with
  | nil => rw [hm] at h; cases h
  | cons c r =>
    rw [hm] at h
    simp only [] at h
    have hc : isAmtChar c = true :=
      hL c (pyStripL_subset (hm ▸ List.mem_cons_self c r))
    have hc' : c ≠ '-' := by
      intro e
      rw [e] at hc
      exact absurd hc (by decide)
    rw [if_neg hc'] at h
    split at h
    · exact pyFloatCore_nonneg _ _ h
    · exact pyFloatCore_nonneg _ _ h

/-- On an all-`[\d,.]` input the parenthesis branch of `parse_amount`
cannot fire. -/
theorem cleanAmount_of_amt {cs : List Char} (hcs : ∀ c ∈ cs, isAmtChar c = true) :
    cleanAmount cs =
      pyStripL ((cs.filter (fun c => c ≠ '$')).filter (fun c => c ≠ ',')) := by
  unfold cleanAmount
  rw [if_neg]
  rintro ⟨h1, -⟩
  have hmem : '(' ∈ cs := by
    have := pyStripL_subset (head?_mem h1)
    exact List.mem_of_mem_filter (List.mem_of_mem_filter this)
  exact absurd (hcs '(' hmem) (by decide)

/-- `parse_amount` of a string of `[\d,.]` characters is never negative. -/
theorem parse_amount_nonneg {s : String} {q : ℚ}
    (hs : ∀ c ∈ s.data, isAmtChar c = true) (h : parse_amount s = some q) : 0 ≤ q := by
  unfold parse_amount at h
  rw [cleanAmount_of_amt hs] at h
  refine pyFloat_nonneg ?_ h
  intro c hc
  exact hs c (List.mem_of_mem_filter (List.mem_of_mem_filter (pyStripL_subset hc)))

/-- The amount group captured by `matchTail` consists of `[\d,.]`
characters. -/
theorem matchTail_amt {cs amt : List Char} (h : matchTail cs = some amt) :
    ∀ c ∈ amt, isAmtChar c = true := by
  unfold matchTail at h
  simp only [] at h
  split at h
  · cases h
  · split at h
    · cases h
    · split at h
      · cases h
        intro c hc
        exact List.mem_takeWhile_imp hc
      · cases h

/-- The amount group survives the lazy description search unchanged. -/
theorem findDescAmt_amt (cs : List Char) : ∀ (acc desc amt : List Char),
    findDescAmt acc cs = some (desc, amt) → ∀ c ∈ amt, isAmtChar c = true := by
  induction cs with
  | nil =>
    intro acc d a h
    cases h
  | cons x rest ih =>
    intro acc d a h
    unfold findDescAmt at h
    split at h
    · cases h
    · split at h
      · rename_i amt' hmt
        cases h
        exact matchTail_amt hmt
      · exact ih _ _ _ h

/-- The amount group survives the whitespace backtracking unchanged. -/
theorem tryWsDesc_amt (cs : List Char) : ∀ (k : Nat) (desc amt : List Char),
    tryWsDesc cs k = some (desc, amt) → ∀ c ∈ amt, isAmtChar c = true := by
  intro k
  induction k with
  | zero =>
    intro d a h
    cases h
  | succ k ih =>
    intro d a h
    unfold tryWsDesc at h
    split at h
    · rename_i r hr
      cases h
      exact findDescAmt_amt _ _ _ _ hr
    · exact ih _ _ h

/-- The amount group of a matched transaction line consists of `[\d,.]`
characters. -/
theorem txMatch_amt {line g1 g2 g3 g4 : String}
    (h : txMatch line = some (g1, g2, g3, g4)) : ∀ c ∈ g4.data, isAmtChar c = true := by
  unfold txMatch at h
  simp only [] at h
  split at h
  · cases h
  · split at h
    · cases h
    · split at h
      · cases h
      · split at h
        · cases h
        · rename_i desc amt hda
          cases h
          unfold matchDescAmt at hda
          exact tryWsDesc_amt _ _ _ _ hda

/-- A date accepted by the field validation step is calendar-valid. -/
theorem strptimeFields_valid {ms ds ys : List Char} {d : Date}
    (h : strptimeFields ms ds ys = some d) : validDate d = true := by
  unfold strptimeFields at h
  split at h
  · rename_i hcond
    cases h
    simp only [Bool.and_eq_true] at hcond
    exact hcond.2
  · cases h

/-- A date accepted by the `strptime` model is calendar-valid. -/
theorem strptimeWith_valid {sep : Char} {df : Bool} {s : String} {d : Date}
    (h : strptimeWith sep df s = some d) : validDate d = true := by
  unfold strptimeWith at h
  split at h
  · exact strptimeFields_valid h
  · cases h

/-- A date accepted by `parse_date` is calendar-valid. -/
theorem parse_date_valid {s : String} {d : Date} (h : parse_date s = some d) :
    validDate d = true :=
  strptimeWith_valid h

/-- The section states reachable in the line loop (Python values `None`,
`"credit"`, `"debit"`, `"fees"`). -/
def SInv (sec : Option String) : Prop :=
  sec = none ∨ sec = some "credit" ∨ sec = some "debit" ∨ sec = some "fees"

/-- The well-formedness contract of an emitted Transaction: non-negative
amount, credit-or-debit type, calendar-valid dates. -/
def WellFormedTx (t : Transaction) : Prop :=
  0 ≤ t.amount ∧ (t.transaction_type = "credit" ∨ t.transaction_type = "debit") ∧
  validDate t.posted_date = true ∧ validDate t.transaction_date = true

/-- The transaction-line step only emits well-formed transactions when the
candidate section tag is credit or debit. -/
theorem tryParseTx_wf {sec line : String} (hcd : sec = "credit" ∨ sec = "debit")
    {t : Transaction} (h : tryParseTx sec line = Except.ok (some t)) :
    WellFormedTx t := by
  unfold tryParseTx at h
  split at h
  · cases h
  · rename_i g1 g2 g3 g4 htm
    split at h
    · cases h
    · rename_i amount hpa
      split at h
      · rename_i pd td hpd htd
        simp only [Except.ok.injEq, Option.some.injEq] at h
        subst h
        exact ⟨parse_amount_nonneg (txMatch_amt htm) hpa, hcd,
          parse_date_valid hpd, parse_date_valid htd⟩
      · cases h

/-- One line-loop step keeps the section state in its reachable set and
only emits well-formed transactions. -/
theorem processLine_wf (sec : Option String) (l : String) (hs : SInv sec) :
    SInv (processLine sec l).1 ∧
    ∀ t, (processLine sec l).2 = Except.ok (some t) → WellFormedTx t := by
  simp only [processLine]
  split
  · exact ⟨Or.inr (Or.inl rfl), fun t ht => by simp at ht⟩
  · split
    · exact ⟨Or.inr (Or.inr (Or.inl rfl)), fun t ht => by simp at ht⟩
    · split
      · exact ⟨Or.inr (Or.inr (Or.inr rfl)), fun t ht => by simp at ht⟩
      · split
        · exact ⟨hs, fun t ht => by simp at ht⟩
        · rcases hs with rfl | rfl | rfl | rfl
          · exact ⟨Or.inl rfl, fun t ht => by simp at ht⟩
          · simp only []
            rw [if_neg (by decide)]
            exact ⟨Or.inr (Or.inl rfl), fun t ht => tryParseTx_wf (Or.inl rfl) ht⟩
          · simp only []
            rw [if_neg (by decide)]
            exact ⟨Or.inr (Or.inr (Or.inl rfl)), fun t ht => tryParseTx_wf (Or.inr rfl) ht⟩
          · simp only []
            rw [if_pos (by decide)]
            exact ⟨Or.inr (Or.inr (Or.inr rfl)), fun t ht => by simp at ht⟩

/-- The line loop only accumulates well-formed transactions. -/
theorem scanLines_wf (ls : List String) :
    ∀ (sec : Option String) (acc : List Transaction)
      (res : Option String × List Transaction),
    SInv sec → (∀ t ∈ acc, WellFormedTx t) →
    scanLines sec acc ls = Except.ok res → ∀ t ∈ res.2, WellFormedTx t := by
  induction ls with
  | nil =>
    intro sec acc res hs hacc h
    cases h
    exact hacc
  | cons l ls ih =>
    intro sec acc res hs hacc h
    have hw := processLine_wf sec l hs
    unfold scanLines at h
    rcases hpl : processLine sec l with ⟨sec', r⟩
    rw [hpl] at h hw
    simp only [] at hw
    cases r with
    | error e =>
      simp only [] at h
      cases h
    | ok o =>
      cases o with
      | none =>
        simp only [] at h
        exact ih sec' acc res hw.1 hacc h
      | some t =>
        simp only [] at h
        refine ih sec' (acc ++ [t]) res hw.1 ?_ h
        intro u hu
        rcases List.mem_append.mp hu with hu | hu
        · exact hacc u hu
        · rw [List.mem_singleton.mp hu]
          exact hw.2 t rfl

/-- One page-loop step only accumulates well-formed transactions. -/
theorem scanPage_wf (p : String) (acc out : List Transaction)
    (hacc : ∀ t ∈ acc, WellFormedTx t) (h : scanPage acc p = Except.ok out) :
    ∀ t ∈ out, WellFormedTx t := by
  unfold scanPage at h
  split at h
  · cases h
    exact hacc
  · cases hsl : scanLines none acc (pySplitLines p) with
    | error e =>
      rw [hsl] at h
      simp only [] at h
      cases h
    | ok pr =>
      obtain ⟨st, acc'⟩ := pr
      rw [hsl] at h
      simp only [] at h
      cases h
      exact scanLines_wf (pySplitLines p) none acc _ (Or.inl rfl) hacc hsl

/-- The page loop only accumulates well-formed transactions. -/
theorem scanPages_wf (ps : List String) : ∀ (acc out : List Transaction),
    (∀ t ∈ acc, WellFormedTx t) → scanPages acc ps = Except.ok out →
    ∀ t ∈ out, WellFormedTx t := by
  induction ps with
  | nil =>
    intro acc out hacc h
    cases h
    exact hacc
  | cons p ps ih =>
    intro acc out hacc h
    unfold scanPages at h
    cases hpg : scanPage acc p with
    | error e =>
      rw [hpg] at h
      simp only [] at h
      cases h
    | ok acc' =>
      rw [hpg] at h
      simp only [] at h
      exact ih acc' out (scanPage_wf p acc acc' hacc hpg) h

/-- Every transaction of a successful `parse_transactions` run is
well-formed. -/
theorem parse_transactions_wf (pages : List String) (txs : List Transaction)
    (summary : StatementSummary)
    (h : parse_transactions pages = Except.ok (txs, summary)) :
    ∀ t ∈ txs, WellFormedTx t := by
  unfold parse_transactions at h
  cases hsum : (match pages with
      | [] => Except.ok ({} : StatementSummary)
      | first_page :: _ => extractSummary first_page) with
  | error e =>
    rw [hsum] at h
    simp only [] at h
    cases h
  | ok s =>
    rw [hsum] at h
    simp only [] at h
    cases hscan : scanPages [] pages with
    | error e =>
      rw [hscan] at h
      simp only [] at h
      cases h
    | ok l =>
      rw [hscan] at h
      simp only [] at h
      cases h
      refine scanPages_wf pages [] _ ?_ hscan
      intro t ht
      exact absurd ht (List.not_mem_nil t)

/-- C2: for any input on which decryption and extraction succeed, every
Transaction returned by the pipeline has a non-negative amount, a
transaction_type that is `"credit"` or `"debit"`, and calendar-valid
posted and transaction dates. -/
theorem parse_wellformed
    (decrypt_pdf : List Nat → String → Except PdfError (List Nat))
    (extract_text_from_pdf : List Nat → Except PdfError (List String))
    (pdf_bytes : List Nat) (password : String)
    (txs : List Transaction) (summary : StatementSummary)
    (h : parse_statement_pdf decrypt_pdf extract_text_from_pdf pdf_bytes password =
      Except.ok (txs, summary)) :
    ∀ t ∈ txs, 0 ≤ t.amount ∧
      (t.transaction_type = "credit" ∨ t.transaction_type = "debit") ∧
      validDate t.posted_date = true ∧ validDate t.transaction_date = true := by
  unfold parse_statement_pdf at h
  cases hd : decrypt_pdf pdf_bytes password with
  | error e =>
    rw [hd] at h
    simp only [] at h
    cases h
  | ok dec =>
    rw [hd] at h
    simp only [] at h
    cases he : extract_text_from_pdf dec with
    | error e =>
      rw [he] at h
      simp only [] at h
      cases h
    | ok pages =>
      rw [he] at h
      simp only [] at h
      exact parse_transactions_wf pages txs summary h

/-- Witness for C2 on a concrete one-page statement. -/
theorem parse_wellformed_witness :
    parse_statement_pdf (fun _ _ => Except.ok []) (fun _ => Except.ok [examplePage])
      [] "" = Except.ok ([exampleTx], {}) ∧
    (0 ≤ exampleTx.amount ∧
      (exampleTx.transaction_type = "credit" ∨ exampleTx.transaction_type = "debit") ∧
      validDate exampleTx.posted_date = true ∧
      validDate exampleTx.transaction_date = true) := by
  constructor
  · with_unfolding_all rfl
  · exact parse_wellformed (fun _ _ => Except.ok []) (fun _ => Except.ok [examplePage])
      [] "" [exampleTx] {} (by with_unfolding_all rfl) exampleTx
      (List.mem_cons_self _ _)

/-- The line loop's accumulator is a pure prefix: scanning with initial
accumulator `acc` appends the same transactions it would find starting
from `[]`. -/
theorem scanLines_append (ls : List String) (sec : Option String) (acc : List Transaction) :
    scanLines sec acc ls =
      Except.map (fun r => (r.1, acc ++ r.2)) (scanLines sec [] ls) := by
  induction ls generalizing sec acc with
  | nil => simp [scanLines, Except.map]
  | cons l ls ih =>
    rcases hpl : processLine sec l with ⟨sec', r⟩
    cases r with
    | error e => simp [scanLines, hpl, Except.map]
    | ok o =>
      cases o with
      | none =>
        simp only [scanLines, hpl]
        rw [ih sec' acc]
      | some t =>
        simp only [scanLines, hpl]
        rw [ih sec' (acc ++ [t]), ih sec' ([] ++ [t])]
        cases scanLines sec' [] ls <;> simp [Except.map]

/-- `scanPage` relative to an empty initial accumulator. -/
theorem scanPage_append (p : String) (acc : List Transaction) :
    scanPage acc p = Except.map (fun l => acc ++ l) (scanPage [] p) := by
  unfold scanPage
  by_cases hm : containsSub ("Account Activity") p = false
  · simp [hm, Except.map]
  · simp only [hm, if_neg, ite_false]
    rw [scanLines_append]
    cases scanLines none [] (pySplitLines p) <;> simp [Except.map]

/-- `scanPages` relative to an empty initial accumulator. -/
theorem scanPages_append (ps : List String) (acc : List Transaction) :
    scanPages acc ps = Except.map (fun l => acc ++ l) (scanPages [] ps) := by
  induction ps generalizing acc with
  | nil => simp [scanPages, Except.map]
  | cons p ps ih =>
    simp only [scanPages]
    rw [scanPage_append]
    cases hB : scanPage [] p with
    | error e => simp [Except.map]
    | ok l =>
      simp only [Except.map]
      rw [ih (acc ++ l), ih l]
      cases scanPages [] ps <;> simp [Except.map]

/-- The transactions one page contributes on its own: the page loop body
run on that single page with a fresh accumulator and, inside `scanPage`,
the section state initialised to `None`. -/
def pageTransactions (p : String) : List Transaction :=
  match scanPage [] p with
  | Except.ok l => l
  | Except.error _ => []

/-- A successful page loop yields exactly the concatenation of the
per-page contributions, in page order. -/
theorem scanPages_ok_join (ps : List String) (txs : List Transaction)
    (h : scanPages [] ps = Except.ok txs) :
    txs = (ps.map pageTransactions).flatten := by
  induction ps generalizing txs with
  | nil =>
    cases h
    simp
  | cons p ps ih =>
    simp only [scanPages] at h
    cases hB : scanPage [] p with
    | error e => rw [hB] at h; cases h
    | ok l =>
      simp only [hB] at h
      rw [scanPages_append] at h
      cases hC : scanPages [] ps with
      | error e => rw [hC] at h; cases h
      | ok l2 =>
        rw [hC] at h
        cases h
        simp [pageTransactions, hB, ih l2 hC]

/-- C6: for every successful run of `parse_transactions`, the transaction
list is the concatenation of independent per-page contributions (each page
scanned with the section state freshly reset to NONE, so no state carries
over between pages), and a page whose text lacks the literal
`"Account Activity"` contributes zero transactions regardless of content. -/
theorem per_page_independence (pages : List String) (txs : List Transaction)
    (summary : StatementSummary)
    (h : parse_transactions pages = Except.ok (txs, summary)) :
    txs = (pages.map pageTransactions).flatten ∧
    ∀ p : String, containsSub ("Account Activity") p = false →
      pageTransactions p = [] := by
  constructor
  · unfold parse_transactions at h
    split at h
    · cases h
    · rename_i s hsum
      split at h
      · cases h
      · rename_i l hscan
        cases h
        exact scanPages_ok_join pages _ hscan
  · intro p hp
    simp [pageTransactions, scanPage, hp]

/-- Witness for C6: the worked-example page plus a markerless page. -/
theorem per_page_independence_witness :
    ([exampleTx] : List Transaction) =
      (([examplePage, "Purchases and Cash Advances\n04/02/2024  04/01/2024  AMAZON MKTPLACE  $45.67"].map pageTransactions)).flatten ∧
    pageTransactions "Purchases and Cash Advances\n04/02/2024  04/01/2024  AMAZON MKTPLACE  $45.67" = [] := by
  have h := per_page_independence
    [examplePage, "Purchases and Cash Advances\n04/02/2024  04/01/2024  AMAZON MKTPLACE  $45.67"]
    [exampleTx] {} (by with_unfolding_all rfl)
  exact ⟨h.1, h.2 _ (by decide)⟩

/-- Witness for C9 with a concrete always-failing decryptor. -/
theorem decryption_error_propagates_witness :
    parse_statement_pdf
      (fun _ _ => Except.error (PdfError.decryptionError "wrong password"))
      (fun _ => Except.ok []) [] "" =
      Except.error (PdfError.decryptionError "wrong password") :=
  decryption_error_propagates
    (fun _ _ => Except.error (PdfError.decryptionError "wrong password"))
    (fun _ => Except.ok []) [] "" "wrong password" rfl

/-- A list's `getLast?` element is a member. -/
theorem getLast?_mem {α : Type} {l : List α} {a : α} (h : l.getLast? = some a) :
    a ∈ l := by
  rcases List.mem_getLast?_eq_getLast h with ⟨hne, rfl⟩
  exact List.getLast_mem hne

/-- Dropping a prefix preserves the last element when something is left. -/
theorem getLast?_drop_of_ne_nil {α : Type} (n : Nat) (l : List α)
    (h : l.drop n ≠ []) : (l.drop n).getLast? = l.getLast? := by
  conv_rhs => rw [← List.take_append_drop n l]
  exact (List.getLast?_append_of_ne_nil _ h).symm

/-- Consuming an optional `$` preserves the last element when something is
left. -/
theorem getLast?_stripDollar (r : List Char) (h : stripDollar r ≠ []) :
    r.getLast? = (stripDollar r).getLast? := by
  cases r with
  | nil => rfl
  | cons a t =>
    simp only [stripDollar]
    split
    · cases t with
      | nil =>
        exfalso
        apply h
        rename_i ha
        simp only [stripDollar]
        rw [if_pos ha]
      | cons d ds => rw [List.getLast?_cons_cons]
    · rfl

/-- `matchTail` fails on the empty list. -/
theorem matchTail_nil : matchTail [] = none := rfl

/-- `findDescAmt` fails on the empty list. -/
theorem findDescAmt_nil (acc : List Char) : findDescAmt acc [] = none := rfl

/-- `tryWsDesc` fails on the empty list. -/
theorem tryWsDesc_nil : ∀ k, tryWsDesc ([] : List Char) k = none := by
  intro k
  induction k with
  | zero => rfl
  | succ k ih =>
    unfold tryWsDesc
    rw [List.drop_nil, findDescAmt_nil]
    exact ih

/-- When the amount-tail pattern matches, the last character of the input
is whitespace or an amount character (it can never be `)`). -/
theorem matchTail_last {cs amt : List Char} (h : matchTail cs = some amt) :
    ∀ c, cs.getLast? = some c → (isPySpace c || isAmtChar c) = true := by
  intro c hc
  unfold matchTail at h
  simp only [] at h
  split at h
  · cases h
  · split at h
    · cases h
    next hamt =>
      split at h
      next hall =>
        have hr2ne : stripDollar (cs.dropWhile isPySpace) ≠ [] := by
          intro e
          rw [e] at hamt
          simp at hamt
        have hr1ne : cs.dropWhile isPySpace ≠ [] := by
          intro e
          apply hr2ne
          rw [e]
          rfl
        have h1 : cs.getLast? = (cs.dropWhile isPySpace).getLast? := by
          conv_lhs => rw [← List.takeWhile_append_dropWhile (p := isPySpace) (l := cs)]
          exact List.getLast?_append_of_ne_nil _ hr1ne
        have h2 := getLast?_stripDollar _ hr2ne
        rw [h1, h2] at hc
        cases hdw : (stripDollar (cs.dropWhile isPySpace)).dropWhile isAmtChar with
        | nil =>
          have heq2 : stripDollar (cs.dropWhile isPySpace) =
              (stripDollar (cs.dropWhile isPySpace)).takeWhile isAmtChar := by
            conv_lhs => rw [← List.takeWhile_append_dropWhile (p := isAmtChar)
              (l := stripDollar (cs.dropWhile isPySpace))]
            rw [hdw, List.append_nil]
          rw [heq2] at hc
          have hca := List.mem_takeWhile_imp (getLast?_mem hc)
          rw [hca, Bool.or_true]
        | cons d ds =>
          have heq2 : stripDollar (cs.dropWhile isPySpace) =
              (stripDollar (cs.dropWhile isPySpace)).takeWhile isAmtChar ++ (d :: ds) := by
            conv_lhs => rw [← List.takeWhile_append_dropWhile (p := isAmtChar)
              (l := stripDollar (cs.dropWhile isPySpace))]
            rw [hdw]
          rw [heq2, List.getLast?_append_of_ne_nil _ (by simp)] at hc
          have hmem := getLast?_mem hc
          rw [← hdw] at hmem
          have hcs := List.all_eq_true.mp hall _ hmem
          rw [hcs, Bool.true_or]
      · cases h

/-- The last-character property lifts through the lazy description search. -/
theorem findDescAmt_last (cs : List Char) : ∀ (acc desc amt : List Char),
    findDescAmt acc cs = some (desc, amt) →
    ∀ c, cs.getLast? = some c → (isPySpace c || isAmtChar c) = true := by
  induction cs with
  | nil =>
    intro acc d a h
    cases h
  | cons x rest ih =>
    intro acc d a h c hc
    unfold findDescAmt at h
    split at h
    · cases h
    · split at h
      · rename_i amt' hmt
        cases rest with
        | nil =>
          rw [matchTail_nil] at hmt
          cases hmt
        | cons y t =>
          rw [List.getLast?_cons_cons] at hc
          exact matchTail_last hmt c hc
      · cases rest with
        | nil =>
          rw [findDescAmt_nil] at h
          cases h
        | cons y t =>
          rw [List.getLast?_cons_cons] at hc
          exact ih _ _ _ h c hc

/-- The last-character property lifts through the whitespace backtracking. -/
theorem tryWsDesc_last (cs : List Char) : ∀ (k : Nat) (desc amt : List Char),
    tryWsDesc cs k = some (desc, amt) →
    ∀ c, cs.getLast? = some c → (isPySpace c || isAmtChar c) = true := by
  intro k
  induction k with
  | zero =>
    intro d a h
    cases h
  | succ k ih =>
    intro d a h c hc
    unfold tryWsDesc at h
    split at h
    · rename_i r hfd
      cases h
      have hne : cs.drop (k + 1) ≠ [] := by
        intro e
        rw [e, findDescAmt_nil] at hfd
        cases hfd
      refine findDescAmt_last _ _ _ _ hfd c ?_
      rw [getLast?_drop_of_ne_nil (k + 1) cs hne]
      exact hc
    · exact ih _ _ h c hc

/-- A successful fixed-shape date group is an initial segment. -/
theorem matchDate2sep_eq {sep : Char} {cs d rest : List Char}
    (h : matchDate2sep sep cs = some (d, rest)) : cs = d ++ rest := by
  unfold matchDate2sep at h
  split at h
  · split at h
    · cases h
      rfl
    · cases h
  · cases h

/-- The last character of any line matched by the transaction pattern is
whitespace or an amount character. -/
theorem txMatch_last {line : String} {r : String × String × String × String}
    (h : txMatch line = some r) :
    ∀ c, line.data.getLast? = some c → (isPySpace c || isAmtChar c) = true := by
  intro c hc
  unfold txMatch at h
  simp only [] at h
  split at h
  · cases h
  · rename_i d1 r1 hd1
    split at h
    next hws1 => cases h
    next hws1 =>
      split at h
      · cases h
      · rename_i d2 r2 hd2
        split at h
        · cases h
        · rename_i desc amt hda
          have e1 := matchDate2sep_eq hd1
          have e2 := matchDate2sep_eq hd2
          have hr2ne : r2 ≠ [] := by
            intro e
            rw [e] at hda
            unfold matchDescAmt at hda
            rw [tryWsDesc_nil] at hda
            cases hda
          have hr1ne : r1 ≠ [] := by
            intro e
            apply hws1
            rw [e]
            rfl
          have hdropne : r1.drop (r1.takeWhile isPySpace).length ≠ [] := by
            intro e
            rw [e2] at e
            rcases List.append_eq_nil.mp e with ⟨-, e'⟩
            exact hr2ne e'
          unfold matchDescAmt at hda
          refine tryWsDesc_last r2 _ _ _ hda c ?_
          have hlast1 : line.data.getLast? = r1.getLast? := by
            rw [e1]
            exact List.getLast?_append_of_ne_nil _ hr1ne
          have hlast2 : r1.getLast? =
              (r1.drop (r1.takeWhile isPySpace).length).getLast? :=
            (getLast?_drop_of_ne_nil _ _ hdropne).symm
          have hlast3 : (r1.drop (r1.takeWhile isPySpace).length).getLast? =
              r2.getLast? := by
            rw [e2]
            exact List.getLast?_append_of_ne_nil _ hr2ne
          rw [← hlast3, ← hlast2, ← hlast1]
          exact hc

/-- C3 (counterexample): a transaction line of the positional form with its
amount wrapped in parentheses, scanned in the DEBIT section state, emits no
Transaction at all — in particular not one with amount `-123.45` as the
claim states — because the amount pattern `[\d,.]+` cannot match the
closing parenthesis. -/
theorem paren_amount_line_no_match :
    processLine (some "debit") "04/02/2024 04/01/2024 STORE ($123.45)" =
      (some "debit", Except.ok none) := by
  with_unfolding_all rfl

/-- C3 (amended): every line whose stripped text ends with `)` — in
particular every positional-form line whose amount field is parenthesized —
fails the transaction pattern and yields no Transaction (and no error) in
any section state; the parenthesis-negation rule of `parse_amount` is never
reached from transaction lines. -/
theorem paren_line_emits_nothing (sec : Option String) (s : String)
    (h : (pyStrip s).data.getLast? = some ')') :
    (processLine sec s).2 = Except.ok none := by
  simp only [processLine]
  split
  · rfl
  · split
    · rfl
    · split
      · rfl
      · split
        · rfl
        · cases sec with
          | none => rfl
          | some sec' =>
            show (if (sec' == "" || sec' == "fees") = true then
                ((some sec', Except.ok none) :
                  Option String × Except PdfError (Option Transaction))
              else (some sec', tryParseTx sec' (pyStrip s))).2 = Except.ok none
            split
            · rfl
            · show tryParseTx sec' (pyStrip s) = Except.ok none
              unfold tryParseTx
              cases htm : txMatch (pyStrip s) with
              | none => rfl
              | some r =>
                exfalso
                have hlast := txMatch_last htm ')' h
                exact absurd hlast (by decide)

/-- Witness for the amended C3 at a concrete parenthesized credit line. -/
theorem paren_line_emits_nothing_witness :
    (pyStrip "01/02/2024 01/01/2024 REFUND ($10.00)").data.getLast? = some ')' ∧
    (processLine (some "credit") "01/02/2024 01/01/2024 REFUND ($10.00)").2 =
      Except.ok none :=
  ⟨by decide, paren_line_emits_nothing (some "credit") _ (by decide)⟩

/-- C5 (counterexample): the line `"02/30/2024 01/01/2024 STORE 5.00"`
matches the transaction-line pattern (the pattern checks only digit
shapes), yet in the CREDIT section state no Transaction is emitted, because
`parse_date` rejects February 30: matching the pattern under CREDIT does
not by itself yield a credit Transaction, contrary to the claim as
stated. -/
theorem pattern_match_without_emission :
    (txMatch "02/30/2024 01/01/2024 STORE 5.00").isSome = true ∧
    processLine (some "credit") "02/30/2024 01/01/2024 STORE 5.00" =
      (some "credit", Except.ok none) := by
  constructor
  · decide
  · with_unfolding_all rfl

/-- C5 (amended): for every line that matches the transaction-line pattern,
contains none of the section-header or skip keywords, and whose two dates
parse as valid calendar dates and amount string converts to a number: under
CREDIT the emitted Transaction has type `"credit"`, under DEBIT type
`"debit"`, and under NONE or FEES no Transaction is emitted. -/
theorem section_state_typing (line g1 g2 g3 g4 : String)
    (d1 d2 : Date) (a : ℚ)
    (htm : txMatch (pyStrip line) = some (g1, g2, g3, g4))
    (hk1 : containsSub ("Payments and Other Credits") (pyStrip line) = false)
    (hk2 : containsSub ("Purchases and Cash Advances") (pyStrip line) = false)
    (hk3 : containsSub ("Fees and Interest Charged") (pyStrip line) = false)
    (hk4 : containsSub ("Sub Total") (pyStrip line) = false)
    (hk5 : containsSub ("No transaction available") (pyStrip line) = false)
    (h1 : parse_date g1 = some d1) (h2 : parse_date g2 = some d2)
    (ha : parse_amount g4 = some a) :
    processLine (some "credit") line = (some "credit", Except.ok (some
      { posted_date := d1, transaction_date := d2, description := pyStrip g3,
        amount := a, transaction_type := "credit" })) ∧
    processLine (some "debit") line = (some "debit", Except.ok (some
      { posted_date := d1, transaction_date := d2, description := pyStrip g3,
        amount := a, transaction_type := "debit" })) ∧
    processLine none line = (none, Except.ok none) ∧
    processLine (some "fees") line = (some "fees", Except.ok none) := by
  refine ⟨?_, ?_, ?_, ?_⟩ <;>
    simp [processLine, tryParseTx, htm, ha, h1, h2, hk1, hk2, hk3, hk4, hk5]

/-- Witness for the amended C5 at a concrete valid line. -/
theorem section_state_typing_witness :
    processLine (some "credit") "04/02/2024 04/01/2024 STORE 5.00" =
      (some "credit", Except.ok (some
        { posted_date := ⟨2024, 4, 2⟩, transaction_date := ⟨2024, 4, 1⟩,
          description := pyStrip "STORE", amount := (5 : ℚ),
          transaction_type := "credit" })) ∧
    processLine none "04/02/2024 04/01/2024 STORE 5.00" = (none, Except.ok none) := by
  have h := section_state_typing "04/02/2024 04/01/2024 STORE 5.00"
    "04/02/2024" "04/01/2024" "STORE" "5.00" ⟨2024, 4, 2⟩ ⟨2024, 4, 1⟩ (5 : ℚ)
    (by decide) (by decide) (by decide) (by decide) (by decide) (by decide)
    (by decide) (by decide) (by with_unfolding_all rfl)
  exact ⟨h.1, h.2.2.1⟩
